import Mathlib

/-!
Shallow embedding of `gulpfile.ts` from the tstlpp-vita repository: the
project-configuration data model, its validation, the packaging pipeline
(`systemFiles`, `processedFiles`, `ebootFile`, `projectFiles`, `build`) and
the deployment workflow (`deployAsync`), together with theorems settling the
specification claims.

Modelling conventions:
* JavaScript strings are Lean `String`s; an optional value (`ip?: string`)
  is `Option String`; JS truthiness of such a value (`!!ip`) is
  `strOptTruthy`.
* Thrown error strings become constructors of `VitaProjectError`;
  fallible functions return `Except VitaProjectError α`.
* Filesystem and network effects are events (`Event`); effectful functions
  return the list of events they performed, in order, next to their result.
  External outcomes (whether a network step succeeds, whether a file exists)
  are oracle parameters.
-/

namespace TstlppVita

/-- The `ports` record of `IVitaProjectConfiguration`. Each field is
optional because the JSON file may supply a partial `ports` object, which
`Object.assign` copies wholesale (shallow merge). -/
structure Ports where
  ftp : Option Nat
  cmd : Option Nat
deriving DecidableEq, Repr

/-- `IVitaProjectConfiguration` from `gulpfile.ts`: the project descriptor
after merging the parsed JSON with the defaults. `ip` is the only optional
field in the TypeScript interface. -/
structure IVitaProjectConfiguration where
  id : String
  title : String
  type : String
  ip : Option String
  ports : Ports
  systemDir : String
  sourceDir : String
  tempDir : String
  outDir : String
  files : List String
deriving DecidableEq, Repr

/-- `defaults.config` from `gulpfile.ts`. The object literal supplies no
`ip` key, so the default `ip` is `none`. -/
def defaultConfig : IVitaProjectConfiguration where
  id := ""
  title := ""
  type := "safe"
  ip := none
  ports := { ftp := some 1337, cmd := some 1338 }
  systemDir := "system"
  sourceDir := "out-src"
  tempDir := ".temp"
  outDir := "dist"
  files := ["*assets/**/*"]

/-- `consts.idLength` from `gulpfile.ts`. -/
def idLength : Nat := 9

/-- The `errors` object: each thrown message string becomes one
constructor. The two directory constructors stand for the inline
`"FATAL ERROR: ..."` strings, `jsonParseError` for exceptions raised by
`JSON.parse`, and `stepFailed` for a rejection coming out of an awaited
network or stream operation inside `deployAsync` that is not one of the
code's own thrown errors. -/
inductive VitaProjectError where
  | projectConfigFileIsMissing
  | idDoesNotConformRequirements
  | titleIsNotAvailable
  | typeIsNotValid
  | ebootFileIsMissing
  | vitaMksfoexDoesntExists
  | ipIsNotDefined
  | tempDirectoryIsNotDefined
  | outDirectoryIsNotDefined
  | jsonParseError
  | stepFailed
deriving DecidableEq, Repr

/-- JavaScript truthiness `!!x` of an optional string: `undefined` and the
empty string are falsy, every other string is truthy. -/
def strOptTruthy : Option String → Bool
  | none => false
  | some s => !s.isEmpty

/-- `validateId`: throws `idDoesNotConformRequirements` unless the id has
length exactly `consts.idLength` (9). No other property of the string is
examined. -/
def validateId (id : String) : Except VitaProjectError Unit :=
  if id.length ≠ idLength then .error .idDoesNotConformRequirements
  else .ok ()

/-- `validateTitle`: throws `titleIsNotAvailable` when the title is empty. -/
def validateTitle (title : String) : Except VitaProjectError Unit :=
  if title.length = 0 then .error .titleIsNotAvailable
  else .ok ()

/-- `validateType`: throws `typeIsNotValid` unless the type is one of the
three literals. -/
def validateType (type : String) : Except VitaProjectError Unit :=
  if type ≠ "safe" ∧ type ≠ "unsafe" ∧ type ≠ "unsafe_sys" then
    .error .typeIsNotValid
  else .ok ()

/-- `validateIp` as written in the source: `if (!!ip) throw
errors.ipIsNotDefined;` — it throws exactly when `ip` is truthy. -/
def validateIp (ip : Option String) : Except VitaProjectError Unit :=
  if strOptTruthy ip then .error .ipIsNotDefined
  else .ok ()

/-- `ensureEbootFileExists`: `fs.existsSync` on
`systemDir/eboot_<type>.bin`, modelled by the boolean oracle `present`. -/
def ensureEbootFileExists (present : Bool) : Except VitaProjectError Unit :=
  if !present then .error .ebootFileIsMissing
  else .ok ()

/-- `validateConfiguration` with its default `ensureEbootFileExists = true`:
id, title and type checks in order, then the loader-binary existence
check. -/
def validateConfiguration (c : IVitaProjectConfiguration)
    (ebootPresent : Bool) : Except VitaProjectError Unit := do
  validateId c.id
  validateTitle c.title
  validateType c.type
  ensureEbootFileExists ebootPresent

/-! ## Reading and merging the configuration file -/

/-- The shape of a successfully parsed `vita-project.json`: every key may
be present or absent. A present `ports` object replaces the default
wholesale (shallow `Object.assign` merge). -/
structure ParsedConfiguration where
  id : Option String := none
  title : Option String := none
  type : Option String := none
  ip : Option String := none
  ports : Option Ports := none
  systemDir : Option String := none
  sourceDir : Option String := none
  tempDir : Option String := none
  outDir : Option String := none
  files : Option (List String) := none
deriving DecidableEq, Repr

/-- The `Object.assign(defaults.config, JSON.parse(...))` merge: every key
present in the parsed JSON takes its parsed value, every absent key keeps
the default. `defaults.config` has no `ip` key, so `defaultConfig.ip` is
`none` and the rule is uniform across fields. -/
def mergeConfiguration (p : ParsedConfiguration) : IVitaProjectConfiguration where
  id := p.id.getD defaultConfig.id
  title := p.title.getD defaultConfig.title
  type := p.type.getD defaultConfig.type
  ip := p.ip.orElse fun _ => defaultConfig.ip
  ports := p.ports.getD defaultConfig.ports
  systemDir := p.systemDir.getD defaultConfig.systemDir
  sourceDir := p.sourceDir.getD defaultConfig.sourceDir
  tempDir := p.tempDir.getD defaultConfig.tempDir
  outDir := p.outDir.getD defaultConfig.outDir
  files := p.files.getD defaultConfig.files

/-- The state of the configuration file on disk: `none` when no file exists
at the path, `some none` when a file exists but `JSON.parse` fails on its
contents, `some (some p)` when it parses to `p`. -/
def ProjectFileState : Type := Option (Option ParsedConfiguration)

/-- `readConfiguration`: `fs.existsSync` guard throwing
`projectConfigFileIsMissing`, then `JSON.parse` (throwing on malformed
input), then the `Object.assign` merge over the defaults. -/
def readConfiguration (file : ProjectFileState) :
    Except VitaProjectError IVitaProjectConfiguration :=
  match file with
  | none => .error .projectConfigFileIsMissing
  | some none => .error .jsonParseError
  | some (some p) => .ok (mergeConfiguration p)

/-! ## Effects: events performed by the pipeline -/

/-- The path `os.tmpdir() + "/temp.sfo"` that `ensureVitaMksfoexExists`
passes to `vita-mksfoex` and then deletes. -/
def tempSfoPath : String := "os-tmpdir/temp.sfo"

/-- Filesystem and network effects, in the order the code performs them.
`execVitaMksfoex p` runs the external generator writing file `p`;
`deleteFile` is a `del` call; `stageTo d` is `gulp.dest d` writing the
staged tree; `writeArchive n d` is `zip(n)` piped to `gulp.dest d`;
`clearDirectory d` deletes the glob `d/**/*`; the `ftp*` and `sendCmd`
events are network operations. -/
inductive Event where
  | execVitaMksfoex (outPath : String)
  | deleteFile (path : String)
  | readConfigFile (path : String)
  | compileSources
  | stageTo (dir : String)
  | writeArchive (archiveName : String) (dir : String)
  | clearDirectory (dir : String)
  | sendCmd (cmd : String)
  | ftpConnect (host : String) (port : Nat)
  | ftpList
  | ftpCd (dir : String)
  | ftpUploadFromDir (dir : String)
  | ftpClose
deriving DecidableEq, Repr

/-- Whether an event mutates the local filesystem (creates, writes or
deletes a file or directory). Reading and network traffic do not. -/
def Event.isFsMutation : Event → Bool
  | .execVitaMksfoex _ => true
  | .deleteFile _ => true
  | .stageTo _ => true
  | .writeArchive _ _ => true
  | .clearDirectory _ => true
  | .compileSources => true
  | _ => false

/-! ## Project construction (`new VitaProject()` / `init()`) -/

/-- The external world a construction run sees: whether `vita-mksfoex` is
invocable, the state of the configuration file, and whether the selected
loader binary exists under `systemDir`. -/
structure World where
  vitaMksfoexAvailable : Bool
  projectFile : ProjectFileState
  ebootFilePresent : Bool

/-- `ensureVitaMksfoexExists`: runs `vita-mksfoex` against
`os.tmpdir()/temp.sfo` (writing that file when the tool is available),
throws `vitaMksfoexDoesntExists` if the invocation fails, and in a
`finally` block always `del`s the temporary file. -/
def ensureVitaMksfoexExists (available : Bool) :
    List Event × Except VitaProjectError Unit :=
  if available then
    ([.execVitaMksfoex tempSfoPath, .deleteFile tempSfoPath], .ok ())
  else
    ([.deleteFile tempSfoPath], .error .vitaMksfoexDoesntExists)

/-- `defaults.projectConfigurationFilePath`. -/
def projectConfigurationFilePath : String := "./vita-project.json"

/-- The `VitaProject` constructor (and the function-style `init`): first
`ensureVitaMksfoexExists`, then `readConfiguration` (which reads the
configuration file when it exists), then `validateConfiguration`. Returns
the events performed, in order, next to the result. -/
def constructVitaProject (w : World) :
    List Event × Except VitaProjectError IVitaProjectConfiguration :=
  match ensureVitaMksfoexExists w.vitaMksfoexAvailable with
  | (ev₁, .error e) => (ev₁, .error e)
  | (ev₁, .ok ()) =>
    let readEvents : List Event :=
      if w.projectFile.isSome then [.readConfigFile projectConfigurationFilePath] else []
    match readConfiguration w.projectFile with
    | .error e => (ev₁ ++ readEvents, .error e)
    | .ok c =>
      match validateConfiguration c w.ebootFilePresent with
      | .error e => (ev₁ ++ readEvents, .error e)
      | .ok () => (ev₁ ++ readEvents, .ok c)

/-! ## The asset pipeline and packager -/

/-- A file flowing through the gulp pipeline: its path inside the package
(relative, as `gulp.src` computes it) and its byte content. -/
structure VFile where
  path : String
  content : String
deriving DecidableEq, Repr

/-- `defaults.ebootFileNames.original`. -/
def ebootOriginalName : String := "eboot.bin"

/-- The loader-binary filename `eboot_<type>.bin` for a package type. -/
def ebootVariantName (type : String) : String :=
  "eboot_" ++ type ++ ".bin"

/-- `defaults.ebootFileNames.{safe,unsafe,unsafe_sys}`: the three loader
variants that `systemFiles` excludes by negated glob. -/
def ebootVariantNames : List String :=
  ["eboot_safe.bin", "eboot_unsafe.bin", "eboot_unsafe_sys.bin"]

/-- `systemFiles`: `src(systemDir/**/*)` minus the three negated variant
globs. The input `sys` lists the files under `systemDir` with
`systemDir`-relative paths. -/
def systemFiles (sys : List VFile) : List VFile :=
  sys.filter fun f => !ebootVariantNames.contains f.path

/-- `additionalFiles`: `src(config.files)`, the glob-expanded user-declared
file set, taken as an input list. -/
def additionalFiles (add : List VFile) : List VFile := add

/-- The gulp-filter pattern of `processedFiles` (the glob picking out
`bmp`, `png` and `jpg` names): a path matches the raster image filter
exactly when it ends in one of the three extensions. -/
def matchesImageFilter (path : String) : Bool :=
  [".bmp", ".png", ".jpg"].any fun ext => ext.toList.isSuffixOf path.toList

/-- `processedFiles`: merge the system and additional sets, route the files
matching the image filter through `pngquant()` (content transform `q`,
path unchanged), and restore the non-matching files unchanged. -/
def processedFiles (q : String → String) (sys add : List VFile) : List VFile :=
  (systemFiles sys ++ additionalFiles add).map fun f =>
    if matchesImageFilter f.path then { f with content := q f.content } else f

/-- `ebootFile`: `src(systemDir/eboot_<type>.bin)` renamed to `eboot.bin`.
The glob selects from `sys` the files whose path is the variant name. -/
def ebootFile (c : IVitaProjectConfiguration) (sys : List VFile) : List VFile :=
  (sys.filter fun f => f.path == ebootVariantName c.type).map
    fun f => { f with path := ebootOriginalName }

/-- `generatedSfoFile`: the external generator's output staged at the fixed
path `sce_sys/param.sfo`; `sfoRaw` is the generated binary content. -/
def generatedSfoFile (sfoRaw : String) : VFile :=
  { path := "sce_sys/param.sfo", content := sfoRaw }

/-- `sourceFiles`: `src(sourceDir/**/*)`, the compiled source tree, taken
as an input list. -/
def sourceFiles (srcT : List VFile) : List VFile := srcT

/-- `projectFiles`: `merge(generatedSfoFile, ebootFile, sourceFiles,
processedFiles)`. -/
def projectFiles (c : IVitaProjectConfiguration) (q : String → String)
    (sfoRaw : String) (sys add srcT : List VFile) : List VFile :=
  generatedSfoFile sfoRaw :: (ebootFile c sys ++ sourceFiles srcT ++ processedFiles q sys add)

/-- How many files of the set carry a given package path. -/
def countPath (name : String) (fs : List VFile) : Nat :=
  (fs.filter fun f => f.path == name).length

/-! ## `build` and the output directory -/

/-- `build`: `compileSourceFiles()`, then `projectFiles` piped through
`zip(title + ".vpk")` into `gulp.dest(outDir)`. No clearing event appears:
`clearOutDirectoryAsync` is never invoked by `build` or by any gulp task. -/
def buildEvents (c : IVitaProjectConfiguration) : List Event :=
  [.compileSources, .writeArchive (c.title ++ ".vpk") c.outDir]

/-- Effect of one event on the set of file names in `outDir`:
`writeArchive` into that directory overwrites-or-adds the archive name,
`clearDirectory` of it empties it, everything else leaves it alone. -/
def applyEventToOutDir (c : IVitaProjectConfiguration)
    (contents : List String) : Event → List String
  | .writeArchive name dir =>
    if dir = c.outDir then
      if contents.contains name then contents else contents ++ [name]
    else contents
  | .clearDirectory dir => if dir = c.outDir then [] else contents
  | _ => contents

/-- The names present in `outDir` after running `build` against a directory
initially holding `initial`. -/
def outDirAfterBuild (c : IVitaProjectConfiguration)
    (initial : List String) : List String :=
  (buildEvents c).foldl (applyEventToOutDir c) initial

/-! ## `clearDirectoryAsync` / `clearOutDirectoryAsync` -/

/-- A JavaScript `Promise` value as seen *before* being awaited: an object
wrapping the value it will resolve to. -/
structure JsPromise (α : Type) where
  awaited : α
deriving DecidableEq, Repr

/-- JavaScript truthiness of a `Promise` object: every object is truthy,
whatever it resolves to. -/
def jsPromiseTruthy {α : Type} (_ : JsPromise α) : Bool := true

/-- `clearDirectoryAsync(dir)`: resolves to `true` (after deleting
`dir/**/*`) when `dir` is truthy, and to `false` otherwise. -/
def clearDirectoryAsync (dir : String) : JsPromise Bool :=
  { awaited := !dir.isEmpty }

/-- `clearOutDirectoryAsync` as written: the guard is
`!this.clearDirectoryAsync(config.outDir)` — the negation of the *Promise
object*, not of the boolean it resolves to. -/
def clearOutDirectoryAsync (c : IVitaProjectConfiguration) :
    Except VitaProjectError Unit :=
  if !jsPromiseTruthy (clearDirectoryAsync c.outDir) then
    .error .outDirectoryIsNotDefined
  else .ok ()

/-- `clearTempDirectoryAsync`: `if (config.tempDir) { await del(tempDir) }
else throw`. Here the guard correctly tests the string itself. -/
def clearTempDirectoryAsync (c : IVitaProjectConfiguration) :
    List Event × Except VitaProjectError Unit :=
  if !c.tempDir.isEmpty then
    ([.deleteFile c.tempDir], .ok ())
  else
    ([], .error .tempDirectoryIsNotDefined)

/-! ## `deployAsync` -/

/-- The awaited external operations of `deployAsync` after `validateIp`,
in source order: `compileSourceFiles()`, staging `projectFiles` into
`tempDir` (awaited via `toPromise`), `sendCmdAsync(config, "destroy")`,
the FTP access/list/navigation/upload/close sequence. `ftp.access` falls
back to `"localhost"` when `ip` is nullish and to port 1337 when
`ports.ftp` is nullish. Whether each awaited operation fulfills is decided
by `stepOutcome`, which includes `sendCmdAsync`'s deterministic internal
rejection. -/
def deploySteps (c : IVitaProjectConfiguration) : List Event :=
  [ .compileSources,
    .stageTo c.tempDir,
    .sendCmd "destroy",
    .ftpConnect (c.ip.getD "localhost") (c.ports.ftp.getD 1337),
    .ftpList,
    .ftpCd "ux0:",
    .ftpCd "app",
    .ftpCd c.id,
    .ftpUploadFromDir c.tempDir,
    .ftpClose ]

/-- JavaScript `x == null` on an optional string: true for
`null`/`undefined` only — in particular the empty string is NOT nullish,
unlike under `!!x` truthiness. -/
def isNullish : Option String → Bool
  | none => true
  | some _ => false

/-- The guard of `generateNetcatClient`:
`if (config.ip == null) throw errors.ipIsNotDefined` before the client is
built — a deterministic rejection that precedes any network traffic. -/
def generateNetcatClient (c : IVitaProjectConfiguration) :
    Except VitaProjectError Unit :=
  if isNullish c.ip then .error .ipIsNotDefined else .ok ()

/-- How the awaited operation behind an event resolves: `none` means it
fulfills, `some err` that it rejects with `err`. A `sendCmd` first runs
`generateNetcatClient`, whose `config.ip == null` check rejects with
`ipIsNotDefined` before anything is sent; every remaining outcome
(network reachability, stream and process failures) belongs to the
environment oracle `ok`. -/
def stepOutcome (c : IVitaProjectConfiguration) (ok : Event → Bool) :
    Event → Option VitaProjectError
  | .sendCmd cmd =>
    match generateNetcatClient c with
    | .error err => some err
    | .ok () => if ok (.sendCmd cmd) then none else some .stepFailed
  | e => if ok e then none else some .stepFailed

/-- Whether the awaited operation behind an event fulfills, internal
rejections included. -/
def stepOk (c : IVitaProjectConfiguration) (ok : Event → Bool) (e : Event) : Bool :=
  (stepOutcome c ok e).isNone

/-- Run a sequence of awaited operations: a rejecting step contributes no
event and aborts the remainder with its error. -/
def runSteps (outcome : Event → Option VitaProjectError) :
    List Event → List Event × Except VitaProjectError Unit
  | [] => ([], .ok ())
  | e :: es =>
    match outcome e with
    | some err => ([], .error err)
    | none =>
      let r := runSteps outcome es
      (e :: r.1, r.2)

/-- `deployAsync`: `validateIp(config.ip)` first (throwing before any
effect), then the awaited operation sequence — whose `sendCmd` step
carries `generateNetcatClient`'s nullish-ip rejection — then, only when
every operation fulfilled, `clearTempDirectoryAsync`. -/
def deployAsync (c : IVitaProjectConfiguration) (ok : Event → Bool) :
    List Event × Except VitaProjectError Unit :=
  match validateIp c.ip with
  | .error e => ([], .error e)
  | .ok () =>
    match runSteps (stepOutcome c ok) (deploySteps c) with
    | (tr, .error e) => (tr, .error e)
    | (tr, .ok ()) =>
      let cl := clearTempDirectoryAsync c
      (tr ++ cl.1, cl.2)

/-! ## Concrete instances used by witnesses and counterexamples -/

/-- A well-formed parsed project file, as in the spec's example scenario:
`id "HELLOWRLD"`, `title "Hello World"`, `type "safe"`, everything else
left to the defaults. -/
def sampleParsed : ParsedConfiguration where
  id := some "HELLOWRLD"
  title := some "Hello World"
  type := some "safe"

/-- The configuration obtained by merging `sampleParsed` over the
defaults. Its `ip` is absent. -/
def sampleConfig : IVitaProjectConfiguration :=
  mergeConfiguration sampleParsed

/-- `sampleConfig` with a remote address configured. -/
def sampleConfigWithIp : IVitaProjectConfiguration :=
  { sampleConfig with ip := some "192.168.1.10" }

/-- `sampleConfig` with an explicitly empty `ip` string. `!!""` is falsy,
so the inverted `validateIp` gate passes, while `"" == null` is also
false, so `generateNetcatClient` does not reject either: this is the one
shape of configuration on which the program can run `deployAsync` past
the destroy step. -/
def sampleConfigEmptyIp : IVitaProjectConfiguration :=
  { sampleConfig with ip := some "" }

/-- The oracle under which every awaited deploy step succeeds. -/
def allStepsOk : Event → Bool := fun _ => true

/-- A parsed project file whose `id` has length 5. -/
def badIdParsed : ParsedConfiguration where
  id := some "SHORT"
  title := some "Hello World"
  type := some "safe"

/-- A world where `vita-mksfoex` is available, the project file parses to
`badIdParsed`, and the loader binary exists: construction fails id
validation. -/
def badIdWorld : World where
  vitaMksfoexAvailable := true
  projectFile := some (some badIdParsed)
  ebootFilePresent := true

/-- Modelled from the spec's words, for comparison with `validateId`: an
id is well formed when it is a 9-character string of uppercase
alphanumeric characters. -/
def specIdWellFormed (id : String) : Bool :=
  id.length == 9 && id.toList.all fun ch => ch.isUpper || ch.isDigit

/-! ## Helper lemmas -/

/-- Running a sequence of awaited operations keeps exactly the fulfilled
prefix, in order. -/
theorem runSteps_trace (c : IVitaProjectConfiguration) (ok : Event → Bool) :
    ∀ l : List Event,
      (runSteps (stepOutcome c ok) l).1 = l.takeWhile (stepOk c ok) := by
  intro l
  induction l with
  | nil => rfl
  | cons e es ih =>
    cases h : stepOutcome c ok e with
    | none => simp [runSteps, h, List.takeWhile_cons, stepOk, ih]
    | some err => simp [runSteps, h, List.takeWhile_cons, stepOk]

/-- Running a sequence of awaited operations succeeds exactly when every
operation fulfills. -/
theorem runSteps_ok_iff (c : IVitaProjectConfiguration) (ok : Event → Bool) :
    ∀ l : List Event,
      ((runSteps (stepOutcome c ok) l).2 = .ok () ↔
        l.all (stepOk c ok) = true) := by
  intro l
  induction l with
  | nil => simp [runSteps]
  | cons e es ih =>
    cases h : stepOutcome c ok e with
    | none => simp [runSteps, h, stepOk, ih]
    | some err => simp [runSteps, h, stepOk]

/-- A list all of whose elements satisfy the predicate is its own
`takeWhile`. -/
theorem takeWhile_eq_self_of_all {p : Event → Bool} :
    ∀ {l : List Event}, l.all p = true → l.takeWhile p = l := by
  intro l
  induction l with
  | nil => intro; rfl
  | cons e es ih =>
    intro h
    rw [List.all_cons, Bool.and_eq_true] at h
    rw [List.takeWhile_cons, if_pos h.1, ih h.2]

/-- `takeWhile` of the left part of an append is an initial segment of the
whole append. -/
theorem takeWhile_eq_take_append {p : Event → Bool} :
    ∀ (l m : List Event), ∃ n, l.takeWhile p = (l ++ m).take n := by
  intro l m
  induction l with
  | nil => exact ⟨0, rfl⟩
  | cons e es ih =>
    obtain ⟨n, hn⟩ := ih
    by_cases h : p e
    · exact ⟨n + 1, by simp [List.takeWhile_cons, h, hn]⟩
    · exact ⟨0, by simp [List.takeWhile_cons, h]⟩

/-- `countPath` distributes over append. -/
theorem countPath_append (n : String) (l₁ l₂ : List VFile) :
    countPath n (l₁ ++ l₂) = countPath n l₁ + countPath n l₂ := by
  simp [countPath, List.filter_append]

/-- Renaming every file of a set to `n` makes `countPath n` the size of
the set. -/
theorem countPath_map_rename (n : String) (l : List VFile) :
    countPath n (l.map fun f => { f with path := n }) = l.length := by
  induction l with
  | nil => rfl
  | cons f fs ih => simpa [countPath, List.filter_cons] using ih

/-- A content-only transform leaves `countPath` unchanged. -/
theorem countPath_map_content (n : String) (g : VFile → String)
    (l : List VFile) :
    countPath n (l.map fun f => { f with content := g f }) = countPath n l := by
  induction l with
  | nil => rfl
  | cons f fs ih =>
    by_cases h : f.path == n
    · simp [countPath, List.filter_cons, h] at ih ⊢; omega
    · simpa [countPath, List.filter_cons, h] using ih

/-- Filtering a set cannot increase `countPath`. -/
theorem countPath_filter_le (n : String) (p : VFile → Bool) (l : List VFile) :
    countPath n (l.filter p) ≤ countPath n l := by
  have hsub : List.Sublist (l.filter p) l := List.filter_sublist l
  exact List.Sublist.length_le (hsub.filter _)

/-- `countPath n l = 0` exactly when no member of `l` has path `n`. -/
theorem countPath_eq_zero (n : String) (l : List VFile) :
    countPath n l = 0 ↔ ∀ f ∈ l, f.path ≠ n := by
  simp [countPath, List.length_eq_zero, List.filter_eq_nil_iff]

/-! ## Claim theorems -/

/-- C1: the claim is right and the code is wrong. `validateIp` reads
`if (!!ip) throw errors.ipIsNotDefined`, so deploy fails with the
"remote address not defined" condition exactly when `ip` IS present —
contradicting the error message's own text — while a configuration with
no `ip` sails past validation and reaches the compiler. -/
theorem c1_ip_validation_is_inverted :
  validateIp (some "192.168.1.10") = .error .ipIsNotDefined ∧
  validateIp none = .ok () ∧
  deployAsync sampleConfigWithIp allStepsOk = ([], .error .ipIsNotDefined) ∧
  Event.compileSources ∈ (deployAsync sampleConfig allStepsOk).1 := by
  refine ⟨rfl, rfl, rfl, ?_⟩
  decide

/-- C5, counterexample: the nine-character lowercase id `"abcdefghi"` is
not uppercase alphanumeric, yet `validateId` accepts it — the code checks
only the length. -/
theorem c5_counterexample_lowercase_id_accepted :
  validateId "abcdefghi" = .ok () ∧ specIdWellFormed "abcdefghi" = false := by
  exact ⟨rfl, by decide⟩

/-- C5, amended: `validateId` accepts an id exactly when its length is 9;
the characters themselves are never examined. -/
theorem c5_amended_validate_id_length_only (id : String) :
    validateId id = .ok () ↔ id.length = idLength := by
  constructor
  · intro h
    by_contra hne
    simp [validateId, hne] at h
  · intro h
    simp [validateId, h]

/-- C10: `clearOutDirectoryAsync` completes without throwing for every
configuration, because its guard negates the (always truthy) Promise
object returned by `clearDirectoryAsync` instead of the boolean it
resolves to — which would be `false` for an empty `outDir`. -/
theorem c10_out_dir_error_branch_unreachable :
  (∀ c : IVitaProjectConfiguration, clearOutDirectoryAsync c = .ok ()) ∧
  (clearDirectoryAsync "").awaited = false :=
  ⟨fun _ => rfl, rfl⟩

/-- C2, counterexample: `build` against an `outDir` already holding
`stale.vpk` leaves `stale.vpk` in place next to the fresh archive, and
`build` performs no clearing of `outDir` — the directory afterwards does
not contain exactly the fresh archive contents. -/
theorem c2_counterexample_stale_file_survives_build :
  "stale.vpk" ∈ outDirAfterBuild sampleConfig ["stale.vpk"] ∧
  outDirAfterBuild sampleConfig ["stale.vpk"] ≠ ["Hello World.vpk"] ∧
  Event.clearDirectory "dist" ∉ buildEvents sampleConfig := by
  decide

/-- C3, counterexample: with `vita-mksfoex` available and a project file
whose id has length 5, construction fails id validation, yet the trace
already contains a filesystem mutation — the `temp.sfo` write performed by
the toolchain availability probe — before the validation error is
raised. -/
theorem c3_counterexample_temp_sfo_written_before_validation :
  (constructVitaProject badIdWorld).2 = .error .idDoesNotConformRequirements ∧
  Event.execVitaMksfoex tempSfoPath ∈ (constructVitaProject badIdWorld).1 ∧
  (Event.execVitaMksfoex tempSfoPath).isFsMutation = true := by
  refine ⟨rfl, by decide, rfl⟩

/-- C4, counterexample. In the claim's own domain — a configuration with
a remote address — deploy throws at the (inverted) ip gate and sends
nothing at all, so no `launch HELLOWRLD` follows any upload; and on the
one configuration shape the program can actually deploy to completion
(`ip: ""`, which passes both the `!!ip` gate and `generateNetcatClient`'s
`== null` check), the run uploads the staged tree and still never sends a
launch command. -/
theorem c4_counterexample_no_launch_after_upload :
  deployAsync sampleConfigWithIp allStepsOk = ([], .error .ipIsNotDefined) ∧
  Event.sendCmd "launch HELLOWRLD" ∉ (deployAsync sampleConfigWithIp allStepsOk).1 ∧
  (deployAsync sampleConfigEmptyIp allStepsOk).2 = .ok () ∧
  Event.ftpUploadFromDir ".temp" ∈ (deployAsync sampleConfigEmptyIp allStepsOk).1 ∧
  Event.sendCmd "launch HELLOWRLD" ∉ (deployAsync sampleConfigEmptyIp allStepsOk).1 := by
  refine ⟨rfl, by decide, rfl, by decide, by decide⟩

/-- C2, amended: `build` writes the fresh archive `<title>.vpk` into
`outDir` without clearing it first — every file already present remains,
and no clearing of any directory is part of `build` (the
`clearOutDirectoryAsync` helper exists but is never invoked). -/
theorem c2_amended_build_never_clears_out_dir
    (c : IVitaProjectConfiguration) (initial : List String) :
    (c.title ++ ".vpk") ∈ outDirAfterBuild c initial ∧
    (∀ x ∈ initial, x ∈ outDirAfterBuild c initial) ∧
    (∀ d, Event.clearDirectory d ∉ buildEvents c) := by
  have h : outDirAfterBuild c initial =
      if initial.contains (c.title ++ ".vpk") then initial
      else initial ++ [c.title ++ ".vpk"] := by
    simp [outDirAfterBuild, buildEvents, applyEventToOutDir]
  refine ⟨?_, ?_, ?_⟩
  · rw [h]
    split
    · next hc => simpa using hc
    · simp
  · intro x hx
    rw [h]
    split
    · exact hx
    · exact List.mem_append_left _ hx
  · intro d
    simp [buildEvents]

/-- Witness for the amended C2 at a concrete directory state. -/
theorem c2_amended_witness :
    "old.vpk" ∈ outDirAfterBuild sampleConfig ["old.vpk"] :=
  (c2_amended_build_never_clears_out_dir sampleConfig ["old.vpk"]).2.1
    "old.vpk" (by decide)

/-- C3, amended: the only filesystem mutations a construction run can
perform before (or while) raising a validation error are the `temp.sfo`
write and delete done in the OS temp directory by the `vita-mksfoex`
availability probe; no project file or directory is created, written or
deleted. -/
theorem c3_amended_only_temp_sfo_mutated (w : World) :
    ∀ e ∈ (constructVitaProject w).1, e.isFsMutation = true →
      e = Event.execVitaMksfoex tempSfoPath ∨ e = Event.deleteFile tempSfoPath := by
  intro e he _
  rcases w with ⟨avail, pf, eboot⟩
  cases avail with
  | false =>
    simp [constructVitaProject, ensureVitaMksfoexExists] at he
    exact Or.inr he
  | true =>
    cases pf with
    | none =>
      simp [constructVitaProject, ensureVitaMksfoexExists, readConfiguration] at he
      rcases he with h | h
      · exact Or.inl h
      · exact Or.inr h
    | some o =>
      cases o with
      | none =>
        simp [constructVitaProject, ensureVitaMksfoexExists, readConfiguration] at he
        rcases he with h | h | h
        · exact Or.inl h
        · exact Or.inr h
        · rename_i hmut
          rw [h] at hmut
          simp [Event.isFsMutation] at hmut
      | some p =>
        rename_i hmut
        cases hv : validateConfiguration (mergeConfiguration p) eboot with
        | error err =>
          simp [constructVitaProject, ensureVitaMksfoexExists, readConfiguration, hv] at he
          rcases he with h | h | h
          · exact Or.inl h
          · exact Or.inr h
          · rw [h] at hmut
            simp [Event.isFsMutation] at hmut
        | ok u =>
          cases u
          simp [constructVitaProject, ensureVitaMksfoexExists, readConfiguration, hv] at he
          rcases he with h | h | h
          · exact Or.inl h
          · exact Or.inr h
          · rw [h] at hmut
            simp [Event.isFsMutation] at hmut

/-- Witness for the amended C3: the probe's write is one of the two
allowed mutations in a failing run. -/
theorem c3_amended_witness :
    Event.execVitaMksfoex tempSfoPath = Event.execVitaMksfoex tempSfoPath ∨
    Event.execVitaMksfoex tempSfoPath = Event.deleteFile tempSfoPath :=
  c3_amended_only_temp_sfo_mutated badIdWorld
    (Event.execVitaMksfoex tempSfoPath) (by decide) rfl

/-- Every event of a deploy trace comes from the step list or from the
temp-directory cleanup. -/
theorem deploy_trace_subset (c : IVitaProjectConfiguration) (ok : Event → Bool) :
    ∀ e ∈ (deployAsync c ok).1, e ∈ deploySteps c ++ (clearTempDirectoryAsync c).1 := by
  intro e he
  cases hv : validateIp c.ip with
  | error err =>
    have hd : deployAsync c ok = ([], .error err) := by
      unfold deployAsync
      rw [hv]
    rw [hd] at he
    simp at he
  | ok u =>
    cases u
    rcases hrs : runSteps (stepOutcome c ok) (deploySteps c) with ⟨tr, res⟩
    have htr : tr = (deploySteps c).takeWhile (stepOk c ok) := by
      have h := runSteps_trace c ok (deploySteps c)
      rw [hrs] at h
      exact h
    cases res with
    | error err =>
      have hd : deployAsync c ok = (tr, .error err) := by
        unfold deployAsync
        rw [hv, hrs]
      rw [hd, htr] at he
      exact List.mem_append_left _ ((List.takeWhile_sublist _).subset he)
    | ok u =>
      cases u
      have hd : deployAsync c ok =
          (tr ++ (clearTempDirectoryAsync c).1, (clearTempDirectoryAsync c).2) := by
        unfold deployAsync
        rw [hv, hrs]
      rw [hd, htr] at he
      rcases List.mem_append.1 he with h | h
      · exact List.mem_append_left _ ((List.takeWhile_sublist _).subset h)
      · exact List.mem_append_right _ h

/-- C4, amended: the deploy operation never sends a `launch <id>` command
— the only command `deployAsync` can ever send over the raw-socket
command channel is `destroy` (a launch command is sent only by the
`test:cmd` task; and for a configuration with a remote address, deploy in
fact fails the inverted ip gate before sending anything — see C1). -/
theorem c4_amended_deploy_sends_only_destroy
    (c : IVitaProjectConfiguration) (ok : Event → Bool) (s : String) :
    Event.sendCmd s ∈ (deployAsync c ok).1 → s = "destroy" := by
  intro h
  have h' := deploy_trace_subset c ok _ h
  by_cases hemp : c.tempDir.isEmpty
  · simp [deploySteps, clearTempDirectoryAsync, hemp] at h'
    exact h'
  · simp [deploySteps, clearTempDirectoryAsync, hemp] at h'
    exact h'

/-- Witness for the amended C4: the destroy command is sent on the one
deploy run the program can complete (empty-string ip). -/
theorem c4_amended_witness :
    Event.sendCmd "destroy" ∈ (deployAsync sampleConfigEmptyIp allStepsOk).1 ∧
    ("destroy" : String) = "destroy" :=
  ⟨by decide, c4_amended_deploy_sends_only_destroy sampleConfigEmptyIp allStepsOk
    "destroy" (by decide)⟩

/-- C8: the deploy trace is always an initial segment of the fixed ordered
step list (compile, stage to `tempDir`, destroy command, FTP connect,
list, `cd ux0:`, `cd app`, `cd <id>`, upload, close, delete `tempDir`), so
each step completes before the next begins and a failure aborts the
remainder; the temp directory deletion occurs only when every earlier
awaited operation fulfilled; and the whole operation succeeds exactly when
the ip gate passes, every awaited operation fulfills — `stepOk` includes
`generateNetcatClient`'s deterministic nullish-ip rejection at the destroy
step, so a no-ip deploy can never succeed — and `tempDir` is non-empty. -/
theorem c8_deploy_strict_order (c : IVitaProjectConfiguration) (ok : Event → Bool) :
    (∃ n, (deployAsync c ok).1 =
      (deploySteps c ++ [Event.deleteFile c.tempDir]).take n) ∧
    (Event.deleteFile c.tempDir ∈ (deployAsync c ok).1 →
      (deploySteps c).all (stepOk c ok) = true) ∧
    ((deployAsync c ok).2 = .ok () ↔
      validateIp c.ip = .ok () ∧ (deploySteps c).all (stepOk c ok) = true ∧
        c.tempDir.isEmpty = false) := by
  cases hv : validateIp c.ip with
  | error err =>
    have hd : deployAsync c ok = ([], .error err) := by
      unfold deployAsync
      rw [hv]
    rw [hd]
    refine ⟨⟨0, rfl⟩, by simp, ?_⟩
    simp [hv]
  | ok u =>
    cases u
    rcases hrs : runSteps (stepOutcome c ok) (deploySteps c) with ⟨tr, res⟩
    have htr : tr = (deploySteps c).takeWhile (stepOk c ok) := by
      have h := runSteps_trace c ok (deploySteps c)
      rw [hrs] at h
      exact h
    have hiff : (res = .ok () ↔ (deploySteps c).all (stepOk c ok) = true) := by
      have h := runSteps_ok_iff c ok (deploySteps c)
      rw [hrs] at h
      exact h
    cases res with
    | error err =>
      have hd : deployAsync c ok = (tr, .error err) := by
        unfold deployAsync
        rw [hv, hrs]
      have hallf : (deploySteps c).all (stepOk c ok) ≠ true := by
        intro h
        have hcontra := hiff.mpr h
        simp at hcontra
      rw [hd]
      refine ⟨?_, ?_, ?_⟩
      · rw [htr]
        exact takeWhile_eq_take_append (deploySteps c) [Event.deleteFile c.tempDir]
      · intro hmem
        rw [htr] at hmem
        have hin : Event.deleteFile c.tempDir ∈ deploySteps c :=
          (List.takeWhile_sublist _).subset hmem
        simp [deploySteps] at hin
      · simp [hallf]
    | ok u =>
      cases u
      have hall : (deploySteps c).all (stepOk c ok) = true := hiff.mp rfl
      have hd : deployAsync c ok =
          (tr ++ (clearTempDirectoryAsync c).1, (clearTempDirectoryAsync c).2) := by
        unfold deployAsync
        rw [hv, hrs]
      rw [htr, takeWhile_eq_self_of_all hall] at hd
      by_cases hemp : c.tempDir.isEmpty
      · have hcl : clearTempDirectoryAsync c =
            ([], .error .tempDirectoryIsNotDefined) := by
          simp [clearTempDirectoryAsync, hemp]
        rw [hcl] at hd
        rw [hd]
        refine ⟨⟨(deploySteps c).length, ?_⟩, fun _ => hall, ?_⟩
        · simp [List.take_left]
        · simp [hv, hall, hemp]
      · have hcl : clearTempDirectoryAsync c =
            ([Event.deleteFile c.tempDir], .ok ()) := by
          simp [clearTempDirectoryAsync, hemp]
        rw [hcl] at hd
        rw [hd]
        refine ⟨⟨(deploySteps c ++ [Event.deleteFile c.tempDir]).length, ?_⟩,
          fun _ => hall, ?_⟩
        · simp
        · simp only [hv, hall, hemp]
          simp

/-- Witness for C8: on an all-successful run with the empty-string-ip
configuration — the one shape the program can deploy to completion — the
temp directory deletion is in the trace and every awaited operation,
the destroy step's internal gate included, indeed fulfilled. -/
theorem c8_witness :
    Event.deleteFile sampleConfigEmptyIp.tempDir ∈
      (deployAsync sampleConfigEmptyIp allStepsOk).1 ∧
    (deploySteps sampleConfigEmptyIp).all (stepOk sampleConfigEmptyIp allStepsOk) = true :=
  ⟨by decide, (c8_deploy_strict_order sampleConfigEmptyIp allStepsOk).2.1 (by decide)⟩

/-- C9: reading the configuration fails with the missing-file condition
exactly when no file exists at the path; when the file parses, every key
present in the parsed JSON takes its parsed value and every absent key
takes the hard-coded default. -/
theorem c9_read_configuration_merges_defaults (file : ProjectFileState) :
    (readConfiguration file = .error .projectConfigFileIsMissing ↔ file = none) ∧
    (∀ p : ParsedConfiguration, file = some (some p) →
      readConfiguration file = .ok (mergeConfiguration p) ∧
      (∀ v, p.id = some v → (mergeConfiguration p).id = v) ∧
      (p.id = none → (mergeConfiguration p).id = defaultConfig.id) ∧
      (∀ v, p.title = some v → (mergeConfiguration p).title = v) ∧
      (p.title = none → (mergeConfiguration p).title = defaultConfig.title) ∧
      (∀ v, p.type = some v → (mergeConfiguration p).type = v) ∧
      (p.type = none → (mergeConfiguration p).type = defaultConfig.type) ∧
      (∀ v, p.ip = some v → (mergeConfiguration p).ip = some v) ∧
      (p.ip = none → (mergeConfiguration p).ip = defaultConfig.ip) ∧
      (∀ v, p.ports = some v → (mergeConfiguration p).ports = v) ∧
      (p.ports = none → (mergeConfiguration p).ports = defaultConfig.ports) ∧
      (∀ v, p.systemDir = some v → (mergeConfiguration p).systemDir = v) ∧
      (p.systemDir = none → (mergeConfiguration p).systemDir = defaultConfig.systemDir) ∧
      (∀ v, p.sourceDir = some v → (mergeConfiguration p).sourceDir = v) ∧
      (p.sourceDir = none → (mergeConfiguration p).sourceDir = defaultConfig.sourceDir) ∧
      (∀ v, p.tempDir = some v → (mergeConfiguration p).tempDir = v) ∧
      (p.tempDir = none → (mergeConfiguration p).tempDir = defaultConfig.tempDir) ∧
      (∀ v, p.outDir = some v → (mergeConfiguration p).outDir = v) ∧
      (p.outDir = none → (mergeConfiguration p).outDir = defaultConfig.outDir) ∧
      (∀ v, p.files = some v → (mergeConfiguration p).files = v) ∧
      (p.files = none → (mergeConfiguration p).files = defaultConfig.files)) := by
  constructor
  · cases file with
    | none => simp [readConfiguration]
    | some o => cases o <;> simp [readConfiguration]
  · intro p hp
    subst hp
    refine ⟨rfl, ?_, ?_, ?_, ?_, ?_, ?_, ?_, ?_, ?_, ?_, ?_, ?_, ?_, ?_, ?_, ?_,
      ?_, ?_, ?_, ?_⟩ <;>
      first
      | (intro v hv; simp [mergeConfiguration, Option.orElse, hv])
      | (intro h0; simp [mergeConfiguration, Option.orElse, h0])

/-- Witness for C9 at the sample project file: the parse succeeds, the
present `id` key takes its parsed value. -/
theorem c9_witness :
    readConfiguration (some (some sampleParsed)) = .ok (mergeConfiguration sampleParsed) ∧
    (mergeConfiguration sampleParsed).id = "HELLOWRLD" := by
  have h := (c9_read_configuration_merges_defaults (some (some sampleParsed))).2
    sampleParsed rfl
  exact ⟨h.1, h.2.1 "HELLOWRLD" rfl⟩

/-- C6: in the system+user merge, every file matching the image filter
(`.bmp`, `.png`, `.jpg`) appears in the processed set with its content
recompressed (transform `q`) and its path intact, every non-matching file
passes through unchanged, nothing else enters the processed set, and the
compiled source tree joins `projectFiles` verbatim, bypassing the
recompression step. -/
theorem c6_image_filter_routing (q : String → String)
    (c : IVitaProjectConfiguration) (sfoRaw : String)
    (sys add srcT : List VFile) :
    (∀ f ∈ systemFiles sys ++ additionalFiles add,
      (matchesImageFilter f.path = true →
        VFile.mk f.path (q f.content) ∈ processedFiles q sys add) ∧
      (matchesImageFilter f.path = false → f ∈ processedFiles q sys add)) ∧
    (∀ g ∈ processedFiles q sys add,
      ∃ f, f ∈ systemFiles sys ++ additionalFiles add ∧ g.path = f.path ∧
        ((matchesImageFilter f.path = true ∧ g.content = q f.content) ∨
         (matchesImageFilter f.path = false ∧ g = f))) ∧
    (∀ f ∈ sourceFiles srcT, f ∈ projectFiles c q sfoRaw sys add srcT) := by
  refine ⟨?_, ?_, ?_⟩
  · intro f hf
    constructor
    · intro him
      have heq : (fun f : VFile =>
          if matchesImageFilter f.path then { f with content := q f.content } else f) f =
          VFile.mk f.path (q f.content) := by
        simp [him]
      exact heq ▸ List.mem_map_of_mem _ hf
    · intro him
      have heq : (fun f : VFile =>
          if matchesImageFilter f.path then { f with content := q f.content } else f) f = f := by
        simp [him]
      exact heq ▸ List.mem_map_of_mem _ hf
  · intro g hg
    rcases List.mem_map.1 hg with ⟨f, hf, hfg⟩
    by_cases him : matchesImageFilter f.path
    · refine ⟨f, hf, ?_, Or.inl ⟨him, ?_⟩⟩ <;> simp [him] at hfg <;> simp [← hfg]
    · refine ⟨f, hf, ?_, Or.inr ⟨by simp [him], ?_⟩⟩ <;> simp [him] at hfg <;>
        simp [← hfg]
  · intro f hf
    simp only [projectFiles, sourceFiles, List.mem_cons, List.mem_append]
    exact Or.inr (Or.inl (Or.inr hf))

/-- Witness for C6: a png in the system set appears recompressed in the
processed set. -/
theorem c6_witness :
    VFile.mk "icon0.png" ("Q" ++ "img") ∈
      processedFiles (fun s => "Q" ++ s) [VFile.mk "icon0.png" "img"] [] :=
  ((c6_image_filter_routing (fun s => "Q" ++ s) sampleConfig "sfo"
    [VFile.mk "icon0.png" "img"] [] []).1
    (VFile.mk "icon0.png" "img") (by decide)).1 (by decide)

/-- `countPath` over a cons. -/
theorem countPath_cons (n : String) (f : VFile) (l : List VFile) :
    countPath n (f :: l) = (if f.path == n then 1 else 0) + countPath n l := by
  by_cases h : f.path == n
  · simp [countPath, List.filter_cons, h]
    omega
  · simp [countPath, List.filter_cons, h]

/-- A path-preserving transform leaves `countPath` unchanged. -/
theorem countPath_map_path_preserved (n : String) (fn : VFile → VFile)
    (hfn : ∀ f, (fn f).path = f.path) :
    ∀ l : List VFile, countPath n (l.map fn) = countPath n l := by
  intro l
  induction l with
  | nil => rfl
  | cons f fs ih => simp [countPath_cons, hfn, ih]

/-- C7: for each of the three package types, under the filesystem
assumptions that `systemDir` holds exactly one file named
`eboot_<type>.bin` and that no gathered set already holds a file named
`eboot.bin`, the assembled package contains exactly one entry named
`eboot.bin`, its content is that of the selected loader variant from
`systemDir`, and the system-files set excludes all three loader variant
filenames. -/
theorem c7_exactly_one_eboot_entry (c : IVitaProjectConfiguration)
    (q : String → String) (sfoRaw : String) (sys add srcT : List VFile)
    (_htype : c.type = "safe" ∨ c.type = "unsafe" ∨ c.type = "unsafe_sys")
    (hvar : countPath (ebootVariantName c.type) sys = 1)
    (hsys : countPath ebootOriginalName sys = 0)
    (hadd : countPath ebootOriginalName add = 0)
    (hsrc : countPath ebootOriginalName srcT = 0) :
    countPath ebootOriginalName (projectFiles c q sfoRaw sys add srcT) = 1 ∧
    (∀ f ∈ projectFiles c q sfoRaw sys add srcT, f.path = ebootOriginalName →
      ∃ g, g ∈ sys ∧ g.path = ebootVariantName c.type ∧ f.content = g.content) ∧
    (∀ f ∈ systemFiles sys, ¬ f.path ∈ ebootVariantNames) := by
  have hpathfn : ∀ f : VFile,
      ((fun f : VFile => if matchesImageFilter f.path then
        { f with content := q f.content } else f) f).path = f.path := by
    intro f
    by_cases h : matchesImageFilter f.path <;> simp [h]
  have hsysfiles : countPath ebootOriginalName (systemFiles sys) = 0 :=
    Nat.le_zero.1 (hsys ▸ countPath_filter_le ebootOriginalName _ sys)
  have hproc : countPath ebootOriginalName (processedFiles q sys add) = 0 := by
    rw [processedFiles, countPath_map_path_preserved _ _ hpathfn,
      countPath_append, hsysfiles]
    simpa [additionalFiles] using hadd
  have hebootpart : countPath ebootOriginalName (ebootFile c sys) = 1 := by
    rw [ebootFile, countPath_map_rename]
    exact hvar
  refine ⟨?_, ?_, ?_⟩
  · rw [projectFiles, countPath_cons, countPath_append, countPath_append]
    rw [hebootpart, hproc]
    have hsfo : ((generatedSfoFile sfoRaw).path == ebootOriginalName) = false := by
      show (("sce_sys/param.sfo" : String) == ebootOriginalName) = false
      decide
    rw [hsfo]
    simp [sourceFiles, hsrc]
  · intro f hf hpath
    rw [projectFiles] at hf
    rcases List.mem_cons.1 hf with hf | hf
    · rw [hf] at hpath
      have hlit : ("sce_sys/param.sfo" : String) = ebootOriginalName := hpath
      exact absurd hlit (by decide)
    rcases List.mem_append.1 hf with hf | hf
    rcases List.mem_append.1 hf with hf | hf
    · rcases List.mem_map.1 hf with ⟨g, hg, hgf⟩
      have hgs := List.mem_filter.1 hg
      refine ⟨g, hgs.1, eq_of_beq hgs.2, ?_⟩
      rw [← hgf]
    · exfalso
      exact (countPath_eq_zero _ _ |>.1 hsrc) f hf hpath
    · exfalso
      rcases List.mem_map.1 hf with ⟨g, hg, hgf⟩
      have hgp : f.path = g.path := by rw [← hgf]; exact hpathfn g
      rcases List.mem_append.1 hg with hg | hg
      · exact (countPath_eq_zero _ _ |>.1 hsysfiles) g hg (hgp ▸ hpath)
      · exact (countPath_eq_zero _ _ |>.1 hadd) g hg (hgp ▸ hpath)
  · intro f hf
    have := List.mem_filter.1 hf
    simpa using this.2

/-- Witness for C7 at a concrete system directory holding the three
variants and one extra file. -/
theorem c7_witness :
    countPath ebootOriginalName
      (projectFiles sampleConfig (fun s => s) "sfo"
        [VFile.mk "eboot_safe.bin" "SAFE", VFile.mk "eboot_unsafe.bin" "U1",
          VFile.mk "eboot_unsafe_sys.bin" "U2", VFile.mk "template.xml" "T"]
        [] [VFile.mk "index.lua" "L"]) = 1 :=
  (c7_exactly_one_eboot_entry sampleConfig (fun s => s) "sfo"
    [VFile.mk "eboot_safe.bin" "SAFE", VFile.mk "eboot_unsafe.bin" "U1",
      VFile.mk "eboot_unsafe_sys.bin" "U2", VFile.mk "template.xml" "T"]
    [] [VFile.mk "index.lua" "L"]
    (Or.inl rfl) (by decide) (by decide) (by decide) (by decide)).1

end TstlppVita
